import Mathlib

/-!
Shallow embedding of the nemesis-backend upload relay core:
the `UploadQueue` consumer (src/uploadQueue.js, first variant),
the admission handler `POST /api/service/upload` (src/upload.js),
and the storage facade (src/config-storage.js plus the storage
fallback branch of the composite server handler).
-/

set_option maxRecDepth 4000

/-- A multer in-memory file object: `originalname`, `size`, `buffer`, `mimetype`. -/
structure UploadFile where
  originalname : String
  size : Nat
  buffer : List Nat
  mimetype : String
deriving DecidableEq

/-- The object passed to `uploadQueue.add` by the route handlers:
`{ file, content, embeds, channelId, configId }`. -/
structure Job where
  file : Option UploadFile
  content : Option String
  embeds : Option String
  channelId : String
  configId : Option String
deriving DecidableEq

/-- The fields of the upload request the validator inspects:
`req.file`, `req.body.content`, `req.body.embeds`. -/
structure UploadReq where
  file : Option UploadFile
  content : Option String
  embeds : Option String
deriving DecidableEq

/-- JSON values, the result type of `JSON.parse`. -/
inductive Json where
  | null : Json
  | bool (b : Bool) : Json
  | num (n : Int) : Json
  | str (s : String) : Json
  | arr (elems : List Json) : Json
  | obj (fields : List (String × Json)) : Json

/-- `Array.isArray` on a parsed JSON value. -/
def Json.isArr : Json → Bool
  | .arr _ => true
  | _ => false

/-- `.length` of a parsed JSON value when it is an array (0 otherwise). -/
def Json.arrLen : Json → Nat
  | .arr xs => xs.length
  | _ => 0

mutual

/-- `JSON.stringify` on the Json model. -/
def Json.stringify : Json → String
  | .null => "null"
  | .bool true => "true"
  | .bool false => "false"
  | .num n => toString n
  | .str s => "\"" ++ s ++ "\""
  | .arr xs => "[" ++ Json.stringifyList xs ++ "]"
  | .obj fs => "\x7b" ++ Json.stringifyObj fs ++ "\x7d"

/-- Comma-separated rendering of a JSON array body. -/
def Json.stringifyList : List Json → String
  | [] => ""
  | [x] => Json.stringify x
  | x :: xs => Json.stringify x ++ "," ++ Json.stringifyList xs

/-- Comma-separated rendering of a JSON object body. -/
def Json.stringifyObj : List (String × Json) → String
  | [] => ""
  | [(k, v)] => "\"" ++ k ++ "\":" ++ Json.stringify v
  | (k, v) :: xs => "\"" ++ k ++ "\":" ++ Json.stringify v ++ "," ++ Json.stringifyObj xs

end

/-!
## The `UploadQueue` state machine (src/uploadQueue.js, first variant)

The JS runtime is single-threaded and cooperative: code between two
`await` suspension points runs atomically.  The machine state mirrors
the fields of the `UploadQueue` singleton plus the observable effects:
`inFlight` is the list of webhook delivery attempts currently awaited
(the source intends at most one; keeping it a list makes single-flight
a theorem rather than a modelling assumption), and `log` records, in
call order, every job handed to the webhook transport (`fetch`).
-/

namespace UploadQueue

/-- State of the `UploadQueue` singleton together with its observable
transport effects. -/
structure QState where
  queue : List Job
  processing : Bool
  inFlight : List Job
  log : List Job
deriving DecidableEq

/-- Initial state: `this.queue = []; this.processing = false`. -/
def init : QState := ⟨[], false, [], []⟩

/-- The synchronous body of `processNext`: if the queue is empty, clear
the busy flag and stop; otherwise `shift()` the head job and begin the
delivery attempt (`await this.processUpload(...)` issues the transport
call before suspending). -/
def processNext (s : QState) : QState :=
  match s.queue with
  | [] => { s with processing := false }
  | j :: rest =>
    { queue := rest, processing := s.processing,
      inFlight := s.inFlight ++ [j], log := s.log ++ [j] }

/-- `processQueue`: returns at once when already processing or empty,
otherwise sets the busy flag and runs the first `processNext`. -/
def processQueue (s : QState) : QState :=
  if s.processing || s.queue.isEmpty then s
  else processNext { s with processing := true }

/-- `add(uploadData)`: push to the tail, then start the consumer only
when it is idle (`if (!this.processing) this.processQueue()`). -/
def add (j : Job) (s : QState) : QState :=
  let s1 : QState := { s with queue := s.queue ++ [j] }
  if s1.processing then s1 else processQueue s1

/-- Events at the machine's suspension points: an `add` call, the
completion (success or failure) of the awaited delivery attempt, and
the `setTimeout(processNext, 60000)` callback firing. -/
inductive Event where
  | add (j : Job) : Event
  | complete (ok : Bool) : Event
  | tick : Event
deriving DecidableEq

/-- One atomic segment of execution.  A completion removes the finished
attempt; the `catch` branch only logs, so the state change is the same
whether `ok` is true or false.  The timeout callback (`tick`) can only
be pending when the consumer is busy with no attempt awaited; at any
other moment it is a no-op. -/
def stepFn (s : QState) (e : Event) : QState :=
  match e with
  | .add j => add j s
  | .complete _ =>
    match s.inFlight with
    | [] => s
    | _ :: rest => { s with inFlight := rest }
  | .tick => if s.processing && s.inFlight.isEmpty then processNext s else s

/-- Run the machine from the initial state over a list of events. -/
def run (es : List Event) : QState := es.foldl stepFn init

/-- The jobs enqueued by a list of events, in order. -/
def addsOf (es : List Event) : List Job :=
  es.filterMap fun e => match e with | .add j => some j | _ => none

/-- Reachability invariant: at most one delivery attempt is awaited, an
idle consumer means an empty queue and nothing awaited, and an awaited
attempt means the busy flag is set. -/
def Inv (s : QState) : Prop :=
  s.inFlight.length ≤ 1 ∧
  (s.processing = false → s.queue = [] ∧ s.inFlight = []) ∧
  (s.inFlight ≠ [] → s.processing = true)

theorem inv_init : Inv init := by
  refine ⟨by simp [init], by simp [init], by simp [init]⟩

theorem step_preserves (s : QState) (e : Event) (h : Inv s) :
    Inv (stepFn s e) ∧
    (stepFn s e).log ++ (stepFn s e).queue =
      s.log ++ s.queue ++ addsOf [e] := by
  obtain ⟨q, p, f, l⟩ := s
  cases e <;> cases p <;> rcases f with _ | ⟨f0, fr⟩ <;> rcases q with _ | ⟨q0, qr⟩ <;>
    simp_all [Inv, addsOf, stepFn, add, processQueue, processNext]

theorem foldl_preserves (es : List Event) :
    ∀ s : QState, Inv s →
      Inv (es.foldl stepFn s) ∧
      (es.foldl stepFn s).log ++ (es.foldl stepFn s).queue =
        s.log ++ s.queue ++ addsOf es := by
  induction es with
  | nil => intro s hs; simpa [addsOf] using hs
  | cons e rest ih =>
    intro s hs
    obtain ⟨hinv, heq⟩ := step_preserves s e hs
    obtain ⟨hinv', heq'⟩ := ih (stepFn s e) hinv
    have hcons : (e :: rest).foldl stepFn s = rest.foldl stepFn (stepFn s e) := by
      simp
    have hadds : addsOf (e :: rest) = addsOf [e] ++ addsOf rest := by
      cases e <;> simp [addsOf]
    refine ⟨by rw [hcons]; exact hinv', ?_⟩
    rw [hcons, heq', hadds]
    have := congrArg (fun t => t ++ addsOf rest) heq
    simpa [List.append_assoc] using this

theorem run_inv (es : List Event) : Inv (run es) :=
  (foldl_preserves es init inv_init).1

theorem run_log_queue (es : List Event) :
    (run es).log ++ (run es).queue = addsOf es := by
  have h := (foldl_preserves es init inv_init).2
  simpa [init] using h

/-- One step extends the transport log and the queue only with jobs
that were already pending or are being enqueued by this very event. -/
theorem step_mem (s : QState) (e : Event) (j : Job) :
    (j ∈ (stepFn s e).log → j ∈ s.log ∨ j ∈ s.queue ∨ e = Event.add j) ∧
    (j ∈ (stepFn s e).queue → j ∈ s.queue ∨ e = Event.add j) := by
  obtain ⟨q, p, f, l⟩ := s
  cases e <;> cases p <;> rcases f with _ | ⟨f0, fr⟩ <;> rcases q with _ | ⟨q0, qr⟩ <;>
    constructor <;> intro hm <;>
    simp_all [stepFn, add, processQueue, processNext] <;> tauto

theorem mem_log_foldl (es : List Event) :
    ∀ (s : QState) (j : Job), j ∈ (es.foldl stepFn s).log →
      j ∈ s.log ∨ j ∈ s.queue ∨ Event.add j ∈ es := by
  induction es with
  | nil => intro s j h; simp only [List.foldl_nil] at h; exact Or.inl h
  | cons e rest ih =>
    intro s j h
    simp only [List.foldl_cons] at h
    rcases ih (stepFn s e) j h with h' | h' | h'
    · rcases (step_mem s e j).1 h' with h'' | h'' | h''
      · exact Or.inl h''
      · exact Or.inr (Or.inl h'')
      · subst h''; exact Or.inr (Or.inr (List.mem_cons_self _ _))
    · rcases (step_mem s e j).2 h' with h'' | h''
      · exact Or.inr (Or.inl h'')
      · subst h''; exact Or.inr (Or.inr (List.mem_cons_self _ _))
    · exact Or.inr (Or.inr (List.mem_cons_of_mem e h'))

/-- Transport calls happen only for jobs that were actually enqueued. -/
theorem mem_log_run (es : List Event) (j : Job) (h : j ∈ (run es).log) :
    Event.add j ∈ es := by
  rcases mem_log_foldl es init j h with h' | h' | h'
  · simp [init] at h'
  · simp [init] at h'
  · exact h'

/-- `k` rounds of "the awaited delivery finishes, then the timeout
callback fires": the quiescent continuation of the consumer loop. -/
def drainEvents : Nat → List Event
  | 0 => []
  | k + 1 => Event.complete true :: Event.tick :: drainEvents k

/-- The combined effect of one completion followed by one timeout tick. -/
def pairStep (s : QState) : QState :=
  stepFn (stepFn s (Event.complete true)) Event.tick

theorem pair_progress (s : QState) (h : Inv s) :
    Inv (pairStep s) ∧
    (pairStep s).log ++ (pairStep s).queue = s.log ++ s.queue ∧
    (pairStep s).queue.length ≤ s.queue.length - 1 ∧
    (s.queue = [] → (pairStep s).queue = [] ∧ (pairStep s).inFlight = []) := by
  obtain ⟨q, p, f, l⟩ := s
  cases p <;> rcases f with _ | ⟨f0, fr⟩ <;> rcases q with _ | ⟨q0, qr⟩ <;>
    simp_all [Inv, pairStep, stepFn, processNext]

theorem drain_delivers (n : Nat) :
    ∀ s : QState, Inv s → s.queue.length ≤ n →
      (drainEvents (n + 1)).foldl stepFn s =
        { queue := [], processing := ((drainEvents (n + 1)).foldl stepFn s).processing,
          inFlight := [], log := s.log ++ s.queue } := by
  induction n with
  | zero =>
    intro s hs hn
    have hq : s.queue = [] := by
      cases hql : s.queue with
      | nil => rfl
      | cons a b => rw [hql] at hn; simp at hn
    have h := pair_progress s hs
    have hps : (drainEvents 1).foldl stepFn s = pairStep s := by
      simp [drainEvents, pairStep]
    rw [hps]
    obtain ⟨_, hlq, _, hfin⟩ := h
    obtain ⟨hq', hf'⟩ := hfin hq
    have hlog : (pairStep s).log = s.log ++ s.queue := by
      have := hlq
      rw [hq'] at this
      simpa using this
    cases hst : pairStep s with
    | mk pq pp pf pl =>
      rw [hst] at hq' hf' hlog
      simp at hq' hf' hlog
      simp [hq', hf', hlog, hst, hq]
  | succ m ih =>
    intro s hs hn
    have hpair := pair_progress s hs
    obtain ⟨hinv, hlq, hlen, _⟩ := hpair
    have hstep : (drainEvents (m + 2)).foldl stepFn s =
        (drainEvents (m + 1)).foldl stepFn (pairStep s) := by
      simp [drainEvents, pairStep]
    have hlen' : (pairStep s).queue.length ≤ m := by omega
    have := ih (pairStep s) hinv hlen'
    rw [hstep, this, hlq]

/-- After a full drain, every enqueued job has been handed to the
transport, in enqueue order, and the queue is empty. -/
theorem run_drain (es : List Event) :
    ((es ++ drainEvents ((run es).queue.length + 1)).foldl stepFn init).log
      = addsOf es ∧
    ((es ++ drainEvents ((run es).queue.length + 1)).foldl stepFn init).queue
      = [] := by
  have hsplit : ∀ (xs ys : List Event),
      (xs ++ ys).foldl stepFn init = ys.foldl stepFn (run xs) := by
    intro xs ys
    simp [run, List.foldl_append]
  rw [hsplit]
  have h := drain_delivers ((run es).queue.length) (run es) (run_inv es) (le_refl _)
  rw [h]
  exact ⟨by simpa using run_log_queue es, rfl⟩

end UploadQueue

/-!
## Content normalization and delivery encoding
(`processUpload`, src/uploadQueue.js first variant, lines 57-157)

JS string primitives are modelled over the string's codepoint list so
that they evaluate by kernel reduction (`String.trim`/`String.endsWith`
from the library use well-founded recursion on byte positions and do
not reduce).
-/

/-- `String.prototype.trim()`: strip whitespace from both ends. -/
def jsTrim (s : String) : String :=
  String.mk (((s.data.dropWhile Char.isWhitespace).reverse.dropWhile
    Char.isWhitespace).reverse)

/-- `String.prototype.toLowerCase()` (ASCII-relevant part). -/
def jsToLower (s : String) : String := String.mk (s.data.map Char.toLower)

/-- `s.endsWith(t)` over codepoints. -/
def strEndsWith (s t : String) : Bool :=
  s.data.drop (s.data.length - t.data.length) == t.data

theorem length_mk (l : List Char) : (String.mk l).length = l.length := rfl

theorem mk_ne_empty (l : List Char) (h : l ≠ []) : String.mk l ≠ "" := by
  intro he
  have h2 := congrArg String.data he
  simp at h2
  exact h h2

/-- `` `📁 New config uploaded: ${file?.originalname || 'config.ini'}` ``:
the synthesized default notification string.  An empty `originalname`
is falsy in JS, so it also falls back to `config.ini`. -/
def defaultContent (file : Option UploadFile) : String :=
  "📁 New config uploaded: " ++
    (match file with
     | some f => if f.originalname = "" then "config.ini" else f.originalname
     | none => "config.ini")

/-- `(content && content.trim()) ? content.trim() : defaultContent`:
a missing, empty, or whitespace-only `content` is falsy (directly or
after trimming) and falls back to the default. -/
def rawContent (content : Option String) (file : Option UploadFile) : String :=
  match content with
  | none => defaultContent file
  | some c =>
    if c = "" then defaultContent file
    else if jsTrim c = "" then defaultContent file
    else jsTrim c

/-- The `if (!finalContent || finalContent.length === 0)` fallback to
`'📁 Config upload notification'`. -/
def finalContent (content : Option String) (file : Option UploadFile) : String :=
  if rawContent content file = "" then "📁 Config upload notification"
  else rawContent content file

/-- One part of a multipart/form-data body. -/
inductive FormPart where
  | field (nm val : String) : FormPart
  | filePart (nm filename : String) (bytes : List Nat) : FormPart
deriving DecidableEq

/-- The outbound webhook request body built by `processUpload`. -/
inductive Delivery where
  | multipart (parts : List FormPart) : Delivery
  | jsonBody (content : String) (embeds : Option Json) : Delivery

/-- Is the delivery a multipart one? -/
def Delivery.isMultipart : Delivery → Bool
  | .multipart _ => true
  | .jsonBody _ _ => false

/-- The body `processUpload` sends to the webhook (first variant).
`parse` stands for `JSON.parse`, returning `none` when it throws.
With a file, the body is multipart: a `content` field, the file, and —
when a (truthy) embeds string parses — a second `content` field with
the embed JSON folded in after a newline.  Without a file, the body is
JSON `{ content, embeds? }`, the embeds key omitted when the embeds
string is absent, empty, or unparsable. -/
def buildDelivery (parse : String → Option Json) (j : Job) : Delivery :=
  let fc := finalContent j.content j.file
  match j.file with
  | some f =>
    let base := [FormPart.field "content" fc,
                 FormPart.filePart "file" f.originalname f.buffer]
    Delivery.multipart
      (match j.embeds with
       | none => base
       | some e =>
         if e = "" then base
         else
           match parse e with
           | none => base
           | some ed =>
             base ++ [FormPart.field "content" (fc ++ "\n" ++ Json.stringify ed)])
  | none =>
    Delivery.jsonBody fc
      (match j.embeds with
       | none => none
       | some e => if e = "" then none else parse e)

/-!
## Admission handler (`POST /api/service/upload`, src/upload.js)
-/

/-- JS truthiness of `process.env.CLOUD_WEBHOOK`: set and non-empty. -/
def webhookConfigured : Option String → Bool
  | none => false
  | some s => if s = "" then false else true

/-- The file checks: `.ini` extension (case-insensitive) first, then
the 1 MiB size ceiling (`req.file.size > 1024 * 1024`).  Returns the
error message of the first failing check. -/
def validFile (f : UploadFile) : Option String :=
  if strEndsWith (jsToLower f.originalname) ".ini" = false then
    some "Only .ini files are allowed"
  else if f.size > 1024 * 1024 then some "File too large"
  else none

/-- `if (req.body.content && req.body.content.length > 2000)`. -/
def contentError (c : Option String) : Option String :=
  match c with
  | none => none
  | some s =>
    if s = "" then none
    else if s.length > 2000 then some "Content too long"
    else none

/-- `if (req.body.embeds) { const embeds = JSON.parse(req.body.embeds);
if (!Array.isArray(embeds) || embeds.length > 1) ... }` with the catch
branch for a parse failure. -/
def embedsError (parse : String → Option Json) (e : Option String) :
    Option String :=
  match e with
  | none => none
  | some s =>
    if s = "" then none
    else
      match parse s with
      | none => some "Invalid embeds format"
      | some v =>
        if (!(Json.isArr v) || Json.arrLen v > 1) then
          some "Invalid embeds format"
        else none

/-- The observable outcome of one admission request: HTTP status, the
`error` field of the response body (absent on success), and the job
handed to `uploadQueue.add` (absent when nothing was enqueued). -/
structure HandlerOutcome where
  status : Nat
  err : Option String
  enqueued : Option Job
deriving DecidableEq

/-- The content/embeds validations and the enqueue step, reached once
the file checks (if any) have passed. -/
def afterFileChecks (parse : String → Option Json) (ch : String)
    (req : UploadReq) : HandlerOutcome :=
  match contentError req.content with
  | some e => ⟨400, some e, none⟩
  | none =>
    match embedsError parse req.embeds with
    | some e => ⟨400, some e, none⟩
    | none => ⟨200, none, some ⟨req.file, req.content, req.embeds, ch, none⟩⟩

/-- The whole `POST /api/service/upload` handler: webhook-configuration
guard, file checks, content check, embeds check, enqueue. -/
def handleUpload (parse : String → Option Json) (webhook : Option String)
    (ch : String) (req : UploadReq) : HandlerOutcome :=
  if webhookConfigured webhook = false then
    ⟨500, some "Webhook not configured", none⟩
  else
    match req.file with
    | none => afterFileChecks parse ch req
    | some f =>
      match validFile f with
      | some e => ⟨400, some e, none⟩
      | none => afterFileChecks parse ch req

/-!
## Storage facade (src/config-storage.js) and the composite handler's
storage fallback branch (the unnamed server file, `POST /api/service/upload`)
-/

/-- The availability flag cached by the periodic health probe. -/
structure StorageState where
  isAvailable : Bool
deriving DecidableEq

/-- `checkHealth`: probe `GET /health`; `isAvailable = response.ok`,
and any network error clears the flag. -/
def checkHealth (probe : Except String Nat) : StorageState :=
  match probe with
  | .ok status => ⟨decide (200 ≤ status ∧ status < 300)⟩
  | .error _ => ⟨false⟩

/-- `makeRequest`: consult the cached flag first and throw without any
network round trip when storage is known-down; otherwise perform one
`fetch` (modelled by the `fetchResult` oracle: a network error or a
status/body pair) and throw on a non-ok status.  The second component
counts the network round trips performed. -/
def makeRequest (st : StorageState)
    (fetchResult : Except String (Nat × String)) :
    Except String String × Nat :=
  if st.isAvailable = false then
    (Except.error "Storage API is not available", 0)
  else
    match fetchResult with
    | .error e => (Except.error e, 1)
    | .ok (status, body) =>
      if 200 ≤ status ∧ status < 300 then (Except.ok body, 1)
      else (Except.error ("Storage API error: " ++ toString status), 1)

/-- The storage phase of the composite upload handler (the unnamed
server file, `POST /api/service/upload`, lines 3194-3391): one
UNCONDITIONAL `fetch` to the storage API — no cached availability flag
is consulted on this path — then the Discord enqueue.  A network error
or a non-ok status throws into the outer catch, which swallows the
failure, enqueues the job WITHOUT the config id, and still answers
success; on a stored config the job is enqueued with the locally
generated config id.  The second component counts the storage network
round trips performed. -/
def compositeStoreAndQueue (fetchResult : Except String (Nat × String))
    (configId : String) (file : Option UploadFile)
    (content embeds : Option String) (ch : String) : HandlerOutcome × Nat :=
  match fetchResult with
  | .error _ => (⟨200, none, some ⟨file, content, embeds, ch, none⟩⟩, 1)
  | .ok (status, _) =>
    if 200 ≤ status ∧ status < 300 then
      (⟨200, none, some ⟨file, content, embeds, ch, some configId⟩⟩, 1)
    else
      (⟨200, none, some ⟨file, content, embeds, ch, none⟩⟩, 1)

/-- The `checkStorageAvailability` middleware of the config-storage
router — the one request path that does consult the cached flag: when
the flag is down it surfaces 503 to the caller (no fallback);
otherwise it passes the request through (`none`). -/
def checkStorageAvailability (st : StorageState) : Option HandlerOutcome :=
  if st.isAvailable = false then
    some ⟨503, some "Storage service unavailable", none⟩
  else none

/-!
## Helper lemmas
-/

theorem append_ne_empty_left (a b : String) (ha : 0 < a.length) : a ++ b ≠ "" := by
  intro h
  have h2 := congrArg String.length h
  rw [String.length_append] at h2
  have h0 : ("" : String).length = 0 := rfl
  rw [h0] at h2
  omega

theorem defaultContent_ne_empty (file : Option UploadFile) :
    defaultContent file ≠ "" := by
  unfold defaultContent
  exact append_ne_empty_left _ _ (by decide)

theorem finalContent_of_blank (content : Option String) (file : Option UploadFile)
    (h : content = none ∨ content = some "" ∨
      (∃ c, content = some c ∧ jsTrim c = "")) :
    finalContent content file = defaultContent file := by
  have hraw : rawContent content file = defaultContent file := by
    rcases h with h | h | ⟨c, hc, ht⟩
    · rw [h]; rfl
    · rw [h]; simp [rawContent]
    · rw [hc]
      by_cases hce : c = ""
      · simp [rawContent, hce]
      · simp [rawContent, hce, ht]
  unfold finalContent
  rw [hraw, if_neg (defaultContent_ne_empty file)]

theorem finalContent_ne_empty (content : Option String) (file : Option UploadFile) :
    finalContent content file ≠ "" := by
  unfold finalContent
  split
  · decide
  · assumption

/-- Job enqueued in the concrete two-job scenario: a `cfg.ini` file and
no text content. -/
def jobA : Job :=
  ⟨some ⟨"cfg.ini", 100, [1, 2, 3], "text/plain"⟩, none, none, "chan", none⟩

/-- Job enqueued in the concrete two-job scenario: no file, text
content `"hello"`. -/
def jobB : Job := ⟨none, some "hello", none, "chan", none⟩

/-!
## Claim theorems
-/

/-- C1: for every sequence of enqueue (`add`) calls, the consumer hands
jobs to the webhook transport exactly in enqueue order (the transport
log is always the delivered front of the enqueue order, and a full
drain delivers all of it), at most one delivery attempt is in flight at
any instant, and a re-entrant `processQueue` start while a drain is in
progress is a no-op. -/
theorem uploadQueue_fifo_single_consumer :
    (∀ es : List UploadQueue.Event,
       (∃ rest, UploadQueue.addsOf es = (UploadQueue.run es).log ++ rest) ∧
       (UploadQueue.run es).inFlight.length ≤ 1) ∧
    (∀ es : List UploadQueue.Event,
       ((es ++ UploadQueue.drainEvents ((UploadQueue.run es).queue.length + 1)).foldl
           UploadQueue.stepFn UploadQueue.init).log = UploadQueue.addsOf es) ∧
    (∀ s : UploadQueue.QState, s.processing = true → UploadQueue.processQueue s = s) := by
  refine ⟨?_, ?_, ?_⟩
  · intro es
    exact ⟨⟨(UploadQueue.run es).queue, (UploadQueue.run_log_queue es).symm⟩,
           (UploadQueue.run_inv es).1⟩
  · intro es
    exact (UploadQueue.run_drain es).1
  · intro s hp
    simp [UploadQueue.processQueue, hp]

theorem uploadQueue_fifo_single_consumer_witness :
    (∃ rest, UploadQueue.addsOf
        [UploadQueue.Event.add jobA, UploadQueue.Event.add jobB] =
      (UploadQueue.run [UploadQueue.Event.add jobA, UploadQueue.Event.add jobB]).log
        ++ rest) ∧
    (UploadQueue.run [UploadQueue.Event.add jobA,
        UploadQueue.Event.add jobB]).inFlight.length ≤ 1 ∧
    UploadQueue.processQueue ⟨[jobB], true, [jobA], [jobA]⟩ =
      ⟨[jobB], true, [jobA], [jobA]⟩ :=
  ⟨(uploadQueue_fifo_single_consumer.1 _).1,
   (uploadQueue_fifo_single_consumer.1 _).2,
   uploadQueue_fifo_single_consumer.2.2 ⟨[jobB], true, [jobA], [jobA]⟩ rfl⟩

/-- C2: a job whose text content is absent, empty, or whitespace-only
is delivered with the synthesized default string, which is non-empty
and carries the file's original name when a file is present (for file
`cfg.ini` and no content, exactly `"📁 New config uploaded: cfg.ini"`);
the delivered body is never empty; and the concrete two-job scenario
delivers content `"📁 New config uploaded: cfg.ini"` then `"hello"`,
in that order. -/
theorem content_normalization :
    (∀ (content : Option String) (file : Option UploadFile),
       (content = none ∨ content = some "" ∨
         (∃ c, content = some c ∧ jsTrim c = "")) →
       finalContent content file = defaultContent file) ∧
    (∀ file : Option UploadFile, defaultContent file ≠ "") ∧
    (∀ f : UploadFile, f.originalname ≠ "" →
       defaultContent (some f) = "📁 New config uploaded: " ++ f.originalname) ∧
    (∀ (content : Option String) (file : Option UploadFile),
       finalContent content file ≠ "") ∧
    finalContent none (some ⟨"cfg.ini", 100, [1, 2, 3], "text/plain"⟩) =
      "📁 New config uploaded: cfg.ini" ∧
    ((UploadQueue.run [UploadQueue.Event.add jobA, UploadQueue.Event.add jobB,
        UploadQueue.Event.complete true, UploadQueue.Event.tick]).log = [jobA, jobB] ∧
     (UploadQueue.run [UploadQueue.Event.add jobA, UploadQueue.Event.add jobB,
        UploadQueue.Event.complete true, UploadQueue.Event.tick]).log.map
          (fun j => finalContent j.content j.file) =
       ["📁 New config uploaded: cfg.ini", "hello"]) := by
  refine ⟨finalContent_of_blank, defaultContent_ne_empty, ?_, finalContent_ne_empty,
    ?_, ?_, ?_⟩
  · intro f hf
    simp [defaultContent, hf]
  · decide
  · decide
  · decide

theorem content_normalization_witness :
    finalContent (some "   ") none = defaultContent none ∧
    defaultContent none ≠ "" ∧
    defaultContent (some ⟨"cfg.ini", 100, [1, 2, 3], "text/plain"⟩) =
      "📁 New config uploaded: " ++ "cfg.ini" ∧
    finalContent (some "hello") none ≠ "" :=
  ⟨content_normalization.1 (some "   ") none
     (Or.inr (Or.inr ⟨"   ", rfl, by decide⟩)),
   content_normalization.2.1 none,
   content_normalization.2.2.1 ⟨"cfg.ini", 100, [1, 2, 3], "text/plain"⟩ (by decide),
   content_normalization.2.2.2.1 (some "hello") none⟩

/-- C7: when the awaited delivery attempt for job `j` fails, the state
change is identical to a success (the job is dropped, never re-enqueued:
the pending queue is untouched), the consumer stays busy, and the
following timeout tick hands the next enqueued job `k` to the transport
— a failed job neither stops the loop nor is retried ahead of later
jobs. -/
theorem failed_delivery_dropped (s : UploadQueue.QState) (j k : Job)
    (rest : List Job) (hf : s.inFlight = [j]) (hp : s.processing = true)
    (hq : s.queue = k :: rest) (hj : j ∉ s.queue) :
    UploadQueue.stepFn s (UploadQueue.Event.complete false) =
      UploadQueue.stepFn s (UploadQueue.Event.complete true) ∧
    (UploadQueue.stepFn s (UploadQueue.Event.complete false)).queue = s.queue ∧
    (UploadQueue.stepFn s (UploadQueue.Event.complete false)).inFlight = [] ∧
    (UploadQueue.stepFn (UploadQueue.stepFn s (UploadQueue.Event.complete false))
        UploadQueue.Event.tick).log = s.log ++ [k] ∧
    (UploadQueue.stepFn (UploadQueue.stepFn s (UploadQueue.Event.complete false))
        UploadQueue.Event.tick).queue = rest ∧
    (UploadQueue.stepFn (UploadQueue.stepFn s (UploadQueue.Event.complete false))
        UploadQueue.Event.tick).inFlight = [k] ∧
    j ∉ (UploadQueue.stepFn (UploadQueue.stepFn s
        (UploadQueue.Event.complete false)) UploadQueue.Event.tick).queue ∧
    j ∉ (UploadQueue.stepFn (UploadQueue.stepFn s
        (UploadQueue.Event.complete false)) UploadQueue.Event.tick).inFlight := by
  obtain ⟨q, p, f, l⟩ := s
  simp only at hf hp hq hj
  subst hf
  subst hp
  subst hq
  have hjk : j ≠ k := by
    intro h
    exact hj (by rw [h]; exact List.mem_cons_self _ _)
  have hjr : j ∉ rest := fun h => hj (List.mem_cons_of_mem _ h)
  refine ⟨rfl, rfl, rfl, ?_, ?_, ?_, ?_, ?_⟩ <;>
    simp [UploadQueue.stepFn, UploadQueue.processNext, hjr, hjk]

theorem failed_delivery_dropped_witness :
    (UploadQueue.stepFn (⟨[jobB], true, [jobA], [jobA]⟩ : UploadQueue.QState)
        (UploadQueue.Event.complete false) =
      UploadQueue.stepFn (⟨[jobB], true, [jobA], [jobA]⟩ : UploadQueue.QState)
        (UploadQueue.Event.complete true)) ∧
    (UploadQueue.stepFn (UploadQueue.stepFn
        (⟨[jobB], true, [jobA], [jobA]⟩ : UploadQueue.QState)
        (UploadQueue.Event.complete false)) UploadQueue.Event.tick).log =
      [jobA] ++ [jobB] :=
  ⟨(failed_delivery_dropped ⟨[jobB], true, [jobA], [jobA]⟩ jobA jobB []
      rfl rfl rfl (by decide)).1,
   (failed_delivery_dropped ⟨[jobB], true, [jobA], [jobA]⟩ jobA jobB []
      rfl rfl rfl (by decide)).2.2.2.1⟩

/-- C8: the delivery encoding is selected solely by the presence of a
file: with a file the body is multipart (content field plus file part),
and when an embed is also present its JSON is folded into a content
field after a newline; without a file the body is JSON with the content
string and an optional embeds array. -/
theorem delivery_encoding_by_file (parse : String → Option Json) (j : Job) :
    ((buildDelivery parse j).isMultipart = true ↔ j.file.isSome = true) ∧
    (∀ f : UploadFile, j.file = some f → j.embeds = none →
       buildDelivery parse j = Delivery.multipart
         [FormPart.field "content" (finalContent j.content j.file),
          FormPart.filePart "file" f.originalname f.buffer]) ∧
    (∀ (f : UploadFile) (e : String) (ed : Json),
       j.file = some f → j.embeds = some e → e ≠ "" → parse e = some ed →
       buildDelivery parse j = Delivery.multipart
         [FormPart.field "content" (finalContent j.content j.file),
          FormPart.filePart "file" f.originalname f.buffer,
          FormPart.field "content"
            (finalContent j.content j.file ++ "\n" ++ Json.stringify ed)]) ∧
    (j.file = none →
       buildDelivery parse j = Delivery.jsonBody (finalContent j.content j.file)
         (match j.embeds with
          | none => none
          | some e => if e = "" then none else parse e)) := by
  refine ⟨?_, ?_, ?_, ?_⟩
  · cases hfile : j.file with
    | none => simp [buildDelivery, hfile, Delivery.isMultipart]
    | some f => simp [buildDelivery, hfile, Delivery.isMultipart]
  · intro f hfile hemb
    simp [buildDelivery, hfile, hemb]
  · intro f e ed hfile hemb hne hparse
    simp [buildDelivery, hfile, hemb, hne, hparse]
  · intro hfile
    simp [buildDelivery, hfile]

/-- A text content of `n` repeated characters, used for the length
boundary cases. -/
def longContent (n : Nat) : String := String.mk (List.replicate n 'x')

theorem longContent_length (n : Nat) : (longContent n).length = n := by
  simp [longContent, length_mk]

theorem longContent_ne_empty (n : Nat) (h : 0 < n) : longContent n ≠ "" := by
  apply mk_ne_empty
  intro h2
  have h3 := congrArg List.length h2
  simp at h3
  omega

/-- C3: with the webhook configured, an upload whose file name does not
end in `.ini` (case-insensitively) is rejected 400 `Only .ini files are
allowed`, one whose file exceeds 1 MiB is rejected 400 `File too
large`; in both cases nothing is enqueued, and the transport is only
ever invoked for enqueued jobs. -/
theorem file_validation_rejects (parse : String → Option Json)
    (webhook : Option String) (ch : String) (req : UploadReq) (f : UploadFile)
    (hw : webhookConfigured webhook = true) (hf : req.file = some f) :
    (strEndsWith (jsToLower f.originalname) ".ini" = false →
       handleUpload parse webhook ch req =
         ⟨400, some "Only .ini files are allowed", none⟩) ∧
    (strEndsWith (jsToLower f.originalname) ".ini" = true →
       f.size > 1024 * 1024 →
       handleUpload parse webhook ch req = ⟨400, some "File too large", none⟩) ∧
    (∀ (es : List UploadQueue.Event) (jj : Job),
       jj ∈ (UploadQueue.run es).log → UploadQueue.Event.add jj ∈ es) := by
  refine ⟨?_, ?_, fun es jj h => UploadQueue.mem_log_run es jj h⟩
  · intro hext
    simp [handleUpload, hw, hf, validFile, hext]
  · intro hext hsize
    simp [handleUpload, hw, hf, validFile, hext, hsize]

theorem file_validation_rejects_witness :
    handleUpload (fun _ => none) (some "https://w") "ch"
      ⟨some ⟨"x.txt", 5, [], "text/plain"⟩, none, none⟩ =
      ⟨400, some "Only .ini files are allowed", none⟩ ∧
    handleUpload (fun _ => none) (some "https://w") "ch"
      ⟨some ⟨"big.ini", 1048577, [], "text/plain"⟩, none, none⟩ =
      ⟨400, some "File too large", none⟩ :=
  ⟨(file_validation_rejects (fun _ => none) (some "https://w") "ch"
      ⟨some ⟨"x.txt", 5, [], "text/plain"⟩, none, none⟩
      ⟨"x.txt", 5, [], "text/plain"⟩ (by decide) rfl).1 (by decide),
   (file_validation_rejects (fun _ => none) (some "https://w") "ch"
      ⟨some ⟨"big.ini", 1048577, [], "text/plain"⟩, none, none⟩
      ⟨"big.ini", 1048577, [], "text/plain"⟩ (by decide) rfl).2.1
      (by decide) (by decide)⟩

/-- C4 counterexample: a request whose content is 3000 characters long
but whose file is not a `.ini` file is rejected with the file-type
error, not `Content too long`, so the claim as stated fails on this
input. -/
theorem content_too_long_counterexample :
    (longContent 3000).length > 2000 ∧
    handleUpload (fun _ => none) (some "https://w") "ch"
      ⟨some ⟨"evil.txt", 10, [], "text/plain"⟩, some (longContent 3000), none⟩ =
      ⟨400, some "Only .ini files are allowed", none⟩ ∧
    (handleUpload (fun _ => none) (some "https://w") "ch"
      ⟨some ⟨"evil.txt", 10, [], "text/plain"⟩,
       some (longContent 3000), none⟩).err ≠ some "Content too long" := by
  have hw : webhookConfigured (some "https://w") = true := by decide
  have hext : strEndsWith (jsToLower "evil.txt") ".ini" = false := by decide
  have hmid : handleUpload (fun _ => none) (some "https://w") "ch"
      ⟨some ⟨"evil.txt", 10, [], "text/plain"⟩, some (longContent 3000), none⟩ =
      ⟨400, some "Only .ini files are allowed", none⟩ := by
    simp [handleUpload, hw, validFile, hext]
  refine ⟨?_, hmid, ?_⟩
  · rw [longContent_length]
    omega
  · rw [hmid]
    decide

/-- C4 amended: with the webhook configured and any attached file
passing the file checks, a request whose text content exceeds 2000
characters is rejected 400 `Content too long` and nothing is
enqueued. -/
theorem content_too_long_amended (parse : String → Option Json)
    (webhook : Option String) (ch : String) (req : UploadReq) (c : String)
    (hw : webhookConfigured webhook = true)
    (hfile : ∀ f, req.file = some f → validFile f = none)
    (hc : req.content = some c) (hlen : c.length > 2000) :
    handleUpload parse webhook ch req = ⟨400, some "Content too long", none⟩ := by
  have hcne : c ≠ "" := by
    intro h
    rw [h] at hlen
    have h0 : ("" : String).length = 0 := rfl
    omega
  have hce : contentError req.content = some "Content too long" := by
    rw [hc]
    simp [contentError, hcne, hlen]
  cases hf : req.file with
  | none => simp [handleUpload, hw, hf, afterFileChecks, hce]
  | some f => simp [handleUpload, hw, hf, hfile f hf, afterFileChecks, hce]

theorem content_too_long_amended_witness :
    handleUpload (fun _ => none) (some "https://w") "ch"
      ⟨none, some (longContent 2001), none⟩ =
      ⟨400, some "Content too long", none⟩ :=
  content_too_long_amended (fun _ => none) (some "https://w") "ch"
    ⟨none, some (longContent 2001), none⟩ (longContent 2001) (by decide)
    (by intro f h; simp at h) rfl (by rw [longContent_length]; omega)

/-- C5 counterexample: an embed specification that is present but is
the empty string fails to parse as JSON, yet the request is accepted
with HTTP 200 and enqueued (JS truthiness skips the embeds check), so
the claim as stated fails on this input. -/
theorem embeds_validation_counterexample :
    (fun (_ : String) => (none : Option Json)) "" = none ∧
    handleUpload (fun _ => none) (some "https://w") "ch" ⟨none, none, some ""⟩ =
      ⟨200, none, some ⟨none, none, some "", "ch", none⟩⟩ := by
  exact ⟨rfl, by decide⟩

/-- C5 amended: with the webhook configured, any attached file passing
the file checks, and the content check passing, a request with a
non-empty embed specification is rejected 400 `Invalid embeds format`
before enqueue unless the specification parses as a JSON array with at
most one element (an empty-string specification is treated as absent
and skipped). -/
theorem embeds_validation_amended (parse : String → Option Json)
    (webhook : Option String) (ch : String) (req : UploadReq) (e : String)
    (hw : webhookConfigured webhook = true)
    (hfile : ∀ f, req.file = some f → validFile f = none)
    (hcont : contentError req.content = none)
    (he : req.embeds = some e) (hne : e ≠ "")
    (hbad : parse e = none ∨
      ∃ v, parse e = some v ∧ (Json.isArr v = false ∨ Json.arrLen v > 1)) :
    handleUpload parse webhook ch req =
      ⟨400, some "Invalid embeds format", none⟩ := by
  have hee : embedsError parse req.embeds = some "Invalid embeds format" := by
    rw [he]
    rcases hbad with hb | ⟨v, hv, hvb⟩
    · simp [embedsError, hne, hb]
    · rcases hvb with hvb | hvb
      · simp [embedsError, hne, hv, hvb]
      · simp [embedsError, hne, hv, hvb]
  cases hf : req.file with
  | none => simp [handleUpload, hw, hf, afterFileChecks, hcont, hee]
  | some f => simp [handleUpload, hw, hf, hfile f hf, afterFileChecks, hcont, hee]

theorem embeds_validation_amended_witness :
    handleUpload (fun _ => some (Json.arr [Json.num 1, Json.num 2]))
      (some "https://w") "ch" ⟨none, none, some "[1,2]"⟩ =
      ⟨400, some "Invalid embeds format", none⟩ :=
  embeds_validation_amended (fun _ => some (Json.arr [Json.num 1, Json.num 2]))
    (some "https://w") "ch" ⟨none, none, some "[1,2]"⟩ "[1,2]" (by decide)
    (by intro f h; simp at h) rfl rfl (by decide)
    (Or.inr ⟨Json.arr [Json.num 1, Json.num 2], rfl, Or.inr (by decide)⟩)

/-- C6: when the webhook URL environment value is absent (or empty,
which JS treats the same), the admission endpoint answers 500 with an
error body for every request — before any validation — and enqueues
nothing. -/
theorem missing_webhook_fails_fast (parse : String → Option Json)
    (webhook : Option String) (ch : String) (req : UploadReq)
    (hw : webhookConfigured webhook = false) :
    handleUpload parse webhook ch req =
      ⟨500, some "Webhook not configured", none⟩ ∧
    (handleUpload parse webhook ch req).enqueued = none := by
  constructor <;> simp [handleUpload, hw]

theorem missing_webhook_fails_fast_witness :
    handleUpload (fun _ => none) none "ch"
      ⟨some ⟨"bad.txt", 9999999, [], "text/plain"⟩, none, none⟩ =
      ⟨500, some "Webhook not configured", none⟩ :=
  (missing_webhook_fails_fast (fun _ => none) none "ch"
    ⟨some ⟨"bad.txt", 9999999, [], "text/plain"⟩, none, none⟩ rfl).1

/-- C9 counterexample: after a failed health probe the cached flag is
down, yet the composite handler's store attempt still performs one
network round trip — its path never consults the flag — refuting "the
storage store operation short-circuits without performing any network
round trip"; and the one request path that does consult the flag, the
config-storage router behind `checkStorageAvailability`, surfaces 503
to the caller instead of swallowing the failure into a success
response. -/
theorem storage_unavailable_counterexample :
    (checkHealth (Except.error "ECONNREFUSED")).isAvailable = false ∧
    (compositeStoreAndQueue (Except.error "fetch failed") "1730000000000"
      (some ⟨"cfg.ini", 100, [1, 2, 3], "text/plain"⟩) none none "ch").2 = 1 ∧
    ¬((compositeStoreAndQueue (Except.error "fetch failed") "1730000000000"
      (some ⟨"cfg.ini", 100, [1, 2, 3], "text/plain"⟩) none none "ch").2 = 0) ∧
    checkStorageAvailability (checkHealth (Except.error "ECONNREFUSED")) =
      some ⟨503, some "Storage service unavailable", none⟩ := by
  exact ⟨rfl, rfl, by decide, rfl⟩

/-- C9 amended: the cached availability flag short-circuits only
`ConfigStorage.makeRequest` (zero network round trips, an error
thrown), and the request paths behind it surface 503 to the caller
rather than falling back; the composite handler's fallback path
instead performs its store fetch unconditionally — exactly one round
trip regardless of the flag — and on any storage failure swallows it,
enqueues the upload job for the Discord webhook path with no config
identifier attached, and answers success; a failed health probe keeps
the flag down. -/
theorem storage_unavailable_amended (st : StorageState)
    (fr : Except String (Nat × String)) (hdown : st.isAvailable = false) :
    makeRequest st fr = (Except.error "Storage API is not available", 0) ∧
    checkStorageAvailability st =
      some ⟨503, some "Storage service unavailable", none⟩ ∧
    (∀ msg : String, (checkHealth (Except.error msg)).isAvailable = false) ∧
    (∀ (fr2 : Except String (Nat × String)) (cid : String)
        (file : Option UploadFile) (content embeds : Option String)
        (ch : String),
       (compositeStoreAndQueue fr2 cid file content embeds ch).2 = 1) ∧
    (∀ (emsg cid : String) (file : Option UploadFile)
        (content embeds : Option String) (ch : String),
       compositeStoreAndQueue (Except.error emsg) cid file content embeds ch =
         (⟨200, none, some ⟨file, content, embeds, ch, none⟩⟩, 1)) := by
  refine ⟨by simp [makeRequest, hdown],
    by simp [checkStorageAvailability, hdown], fun msg => rfl, ?_,
    fun emsg cid file content embeds ch => rfl⟩
  intro fr2 cid file content embeds ch
  rcases fr2 with e | ⟨status, body⟩
  · rfl
  · simp only [compositeStoreAndQueue]
    split <;> rfl

theorem storage_unavailable_amended_witness :
    makeRequest ⟨false⟩ (Except.ok (200, "stored")) =
      (Except.error "Storage API is not available", 0) ∧
    compositeStoreAndQueue (Except.error "down") "17"
      (some ⟨"a.ini", 3, [7], "text/plain"⟩) (some "hi") none "ch" =
      (⟨200, none, some ⟨some ⟨"a.ini", 3, [7], "text/plain"⟩,
        some "hi", none, "ch", none⟩⟩, 1) :=
  ⟨(storage_unavailable_amended ⟨false⟩ (Except.ok (200, "stored")) rfl).1,
   (storage_unavailable_amended ⟨false⟩ (Except.ok (200, "stored")) rfl).2.2.2.2
     "down" "17" (some ⟨"a.ini", 3, [7], "text/plain"⟩) (some "hi") none "ch"⟩

/-- C10: both admission ceilings are inclusive (strict greater-than
comparisons): a `.ini` file of exactly 1,048,576 bytes passes the size
check, a content of exactly 2000 characters passes the length check,
and a request at both boundaries is accepted with HTTP 200 and its job
enqueued. -/
theorem boundary_values_inclusive :
    (∀ f : UploadFile, strEndsWith (jsToLower f.originalname) ".ini" = true →
       f.size = 1024 * 1024 → validFile f = none) ∧
    (∀ c : String, c.length ≤ 2000 → contentError (some c) = none) ∧
    handleUpload (fun _ => none) (some "https://w") "ch"
      ⟨some ⟨"a.ini", 1024 * 1024, [], "text/plain"⟩,
       some (longContent 2000), none⟩ =
      ⟨200, none, some ⟨some ⟨"a.ini", 1024 * 1024, [], "text/plain"⟩,
        some (longContent 2000), none, "ch", none⟩⟩ := by
  refine ⟨?_, ?_, ?_⟩
  · intro f hext hsize
    simp [validFile, hext, hsize]
  · intro c hlen
    by_cases hce : c = ""
    · simp [contentError, hce]
    · have hgt : ¬(c.length > 2000) := by omega
      simp [contentError, hce, hgt]
  · have hw : webhookConfigured (some "https://w") = true := by decide
    have hext : strEndsWith (jsToLower "a.ini") ".ini" = true := by decide
    have hvf : validFile ⟨"a.ini", 1024 * 1024, [], "text/plain"⟩ = none := by
      simp [validFile, hext]
    have hne : longContent 2000 ≠ "" := longContent_ne_empty 2000 (by omega)
    have hgt : ¬((longContent 2000).length > 2000) := by
      rw [longContent_length]
      omega
    have hce : contentError (some (longContent 2000)) = none := by
      simp [contentError, hne, hgt]
    simp [handleUpload, hw, hvf, afterFileChecks, hce, embedsError]

theorem boundary_values_inclusive_witness :
    validFile ⟨"b.INI", 1024 * 1024, [], "text/plain"⟩ = none ∧
    contentError (some "ok") = none :=
  ⟨boundary_values_inclusive.1 ⟨"b.INI", 1024 * 1024, [], "text/plain"⟩
     (by decide) rfl,
   boundary_values_inclusive.2.1 "ok" (by decide)⟩

theorem delivery_encoding_by_file_witness :
    buildDelivery (fun _ => none) jobA = Delivery.multipart
      [FormPart.field "content" (finalContent jobA.content jobA.file),
       FormPart.filePart "file" "cfg.ini" [1, 2, 3]] ∧
    buildDelivery (fun _ => some (Json.arr [Json.num 1])) jobB =
      Delivery.jsonBody (finalContent jobB.content jobB.file)
        (match jobB.embeds with
         | none => none
         | some e => if e = "" then none else some (Json.arr [Json.num 1])) :=
  ⟨(delivery_encoding_by_file (fun _ => none) jobA).2.1
      ⟨"cfg.ini", 100, [1, 2, 3], "text/plain"⟩ rfl rfl,
   (delivery_encoding_by_file (fun _ => some (Json.arr [Json.num 1])) jobB).2.2.2
      rfl⟩
